import Mathlib

/-!
Verification of the xyren.me lead-management dashboard's business rules:
the lead-scoring engine, the qualification-tier mapping, client-side
session aggregation, CSV export escaping, the chat-driven lead-capture
rule, and the enrichment edge function.  Each definition is a shallow
embedding of the corresponding TypeScript/Deno source:
JS `number` values used as integer scores become `Nat`/`Int`,
nullable/optional fields become `Option`, JS string truthiness
(`""` and `null`/`undefined` are falsy) is modelled explicitly,
and timestamps are modelled by their numeric `getTime()` values.
-/

namespace Dashboard

/-! Embedding of `src/components/dashboard/analytics/ScrollDepthChart.tsx`:
`calculateLeadScore` and `getQualificationStatus`. -/

inductive QualificationStatus where
  | hot
  | warm
  | cool
  | cold
deriving DecidableEq, Repr

structure IntentSignals where
  pricing : Option Bool := none
  timeline : Option Bool := none
  specificService : Option Bool := none
  urgency : Option Bool := none

structure LeadScoreInput where
  source : String
  messageCount : Option Nat := none
  intentSignals : Option IntentSignals := none
  hasWebsite : Option Bool := none
  hasAiFeedback : Option Bool := none

/-- Truthiness of an optional boolean field (`undefined` and `false` are falsy). -/
def obTruthy : Option Bool → Bool
  | some b => b
  | none => false

/-- Embedding of `calculateLeadScore` (ScrollDepthChart.tsx, lines 138-190).
The sequential `score += ...` accumulation of the source is kept; the
`if (input.messageCount)` guard is JS-truthy, so `messageCount = 0` skips
the whole engagement block. -/
def calculateLeadScore (input : LeadScoreInput) : Nat :=
  let score : Nat := 0
  let score := score +
    (match input.source with
     | "project_plan_modal" => 30
     | "chatbot_with_url" => 25
     | "chatbot" => 15
     | "hero_modal" => 10
     | "use_case_page" => 20
     | "real_estate" => 20
     | "professional_services" => 20
     | "home_services" => 20
     | "education" => 20
     | _ => 0)
  let score := score +
    (match input.messageCount with
     | none => 0
     | some n =>
       if n = 0 then 0
       else if 11 ≤ n then 35
       else if 7 ≤ n then 25
       else if 4 ≤ n then 15
       else if 2 ≤ n then 5
       else 0)
  let score := score +
    (match input.intentSignals with
     | none => 0
     | some sig =>
       (if obTruthy sig.pricing then 15 else 0) +
       (if obTruthy sig.timeline then 15 else 0) +
       (if obTruthy sig.specificService then 10 else 0) +
       (if obTruthy sig.urgency then 10 else 0))
  let score := score + (if obTruthy input.hasWebsite then 10 else 0)
  let score := score + (if obTruthy input.hasAiFeedback then 10 else 0)
  score

/-- Embedding of `getQualificationStatus` (ScrollDepthChart.tsx, lines 192-197).
Scores are signed integers: nothing in the signature forbids a negative value. -/
def getQualificationStatus (score : Int) : QualificationStatus :=
  if score ≥ 70 then .hot
  else if score ≥ 40 then .warm
  else if score ≥ 20 then .cool
  else .cold

/-- Spec-side source base table, written from the spec's list of contributions. -/
def specSourceBase : String → Nat
  | "project_plan_modal" => 30
  | "chatbot_with_url" => 25
  | "chatbot" => 15
  | "hero_modal" => 10
  | "use_case_page" => 20
  | "real_estate" => 20
  | "professional_services" => 20
  | "home_services" => 20
  | "education" => 20
  | _ => 0

/-- Spec-side message-count bracket bonus: a pure step function on the count,
with an absent count contributing nothing. -/
def specEngagementBonus : Option Nat → Nat
  | none => 0
  | some n =>
    if 11 ≤ n then 35
    else if 7 ≤ n then 25
    else if 4 ≤ n then 15
    else if 2 ≤ n then 5
    else 0

/-- Truthiness of one intent flag inside an optional signal set. -/
def flagTrue (sig : Option IntentSignals) (f : IntentSignals → Option Bool) : Bool :=
  match sig with
  | some s => obTruthy (f s)
  | none => false

/-- Spec-side score: the claim's sum of independent contributions. -/
def specLeadScore (input : LeadScoreInput) : Nat :=
  specSourceBase input.source +
  specEngagementBonus input.messageCount +
  (if flagTrue input.intentSignals (·.pricing) then 15 else 0) +
  (if flagTrue input.intentSignals (·.timeline) then 15 else 0) +
  (if flagTrue input.intentSignals (·.specificService) then 10 else 0) +
  (if flagTrue input.intentSignals (·.urgency) then 10 else 0) +
  (if obTruthy input.hasWebsite then 10 else 0) +
  (if obTruthy input.hasAiFeedback then 10 else 0)

end Dashboard

/-- Truthiness of an optional JS string field: `null`/`undefined` and the
empty string are falsy. -/
def jsTruthy : Option String → Bool
  | some s => !(s == "")
  | none => false

namespace Conversations

/-! Embedding of the session-aggregation logic of `ConversationsTab`
(`groupedSessions`, lines 113-170 of the component) and of the message-list
fallback of `ConversationDetailModal.tsx` (lines 154-171). -/

structure ConversationMessage where
  role : String
  content : String
deriving DecidableEq, Repr

structure CollectedData where
  name : Option String := none
  email : Option String := none
  url : Option String := none
  phone : Option String := none
  websiteFeedback : Option String := none
deriving DecidableEq, Repr

structure ConversationMetadata where
  conversation_history : Option (List ConversationMessage) := none
  step : Option String := none
  collected_data : Option CollectedData := none
  lead_score : Option Int := none
deriving DecidableEq, Repr

/-- One chat interaction row; `created_at` is modelled by its numeric
`getTime()` value, which is all the grouping code uses it for. -/
structure ChatInteraction where
  id : String
  session_id : String
  interaction_type : String
  user_message : Option String
  assistant_message : Option String
  url_scraped : Option String
  lead_id : Option String
  metadata : Option ConversationMetadata
  created_at : Nat
deriving DecidableEq, Repr

instance : Inhabited ChatInteraction :=
  ⟨{ id := "", session_id := "", interaction_type := "", user_message := none,
     assistant_message := none, url_scraped := none, lead_id := none,
     metadata := none, created_at := 0 }⟩

structure GroupedSession where
  session_id : String
  started_at : Nat
  last_activity : Nat
  interaction_count : Nat
  lead_id : Option String
  lead_name : Option String
  first_message : Option String
  conversation_history : List ConversationMessage
  collected_data : CollectedData
  has_url_scraped : Bool
  interactions : List ChatInteraction
deriving DecidableEq, Repr

def lookupGroup : List (String × List ChatInteraction) → String → List ChatInteraction
  | [], _ => []
  | (k', g) :: rest, k => if k' = k then g else lookupGroup rest k

def eraseKey : List (String × List ChatInteraction) → String → List (String × List ChatInteraction)
  | [], _ => []
  | (k', g) :: rest, k => if k' = k then eraseKey rest k else (k', g) :: eraseKey rest k

/-- The `Map`-building loop of `groupedSessions`: iterate the interactions in
order, appending each to its session's list, keys kept in first-occurrence
order (JS `Map` insertion order).  Recursing on the head, the head's key is
the first key and the head element the first of its group. -/
def buildSessionMap : List ChatInteraction → List (String × List ChatInteraction)
  | [] => []
  | i :: rest =>
    let m := buildSessionMap rest
    (i.session_id, i :: lookupGroup m i.session_id) :: eraseKey m i.session_id

/-- Comparator `(a, b) => aTime - bTime` of the chronological sort. -/
def byCreatedAt (a b : ChatInteraction) : Prop := a.created_at ≤ b.created_at

instance : DecidableRel byCreatedAt := fun a b => Nat.decLe a.created_at b.created_at

instance : IsTotal ChatInteraction byCreatedAt := ⟨fun a b => Nat.le_total a.created_at b.created_at⟩

instance : IsTrans ChatInteraction byCreatedAt := ⟨fun _ _ _ => Nat.le_trans⟩

/-- Comparator `(a, b) => bTime - aTime` used for `latestWithMetadata`. -/
def byCreatedAtDesc (a b : ChatInteraction) : Prop := b.created_at ≤ a.created_at

instance : DecidableRel byCreatedAtDesc := fun a b => Nat.decLe b.created_at a.created_at

instance : IsTotal ChatInteraction byCreatedAtDesc := ⟨fun a b => Nat.le_total b.created_at a.created_at⟩

instance : IsTrans ChatInteraction byCreatedAtDesc := ⟨fun _ _ _ h h' => Nat.le_trans h' h⟩

/-- JS `Array.prototype.sort` is a stable sort, and with a consistent total
comparator a stable sort's output is unique, so any stable sort embeds it;
`List.insertionSort` is stable. -/
def sortChronological (l : List ChatInteraction) : List ChatInteraction :=
  List.insertionSort byCreatedAt l

/-- Building one `GroupedSession` from one session's interaction group,
mirroring the body of the `for (const [session_id, sessionInteractions] of
sessionMap)` loop.  `sorted[0]` / `sorted[sorted.length - 1]` are total in JS
only because groups are nonempty; the `default` fallback is never reached. -/
def mkGroupedSession (session_id : String) (group : List ChatInteraction) : GroupedSession :=
  let sorted := sortChronological group
  let latestWithMetadata :=
    (List.insertionSort byCreatedAtDesc (group.filter (fun i => i.metadata.isSome))).head?
  let metadata : Option ConversationMetadata :=
    match latestWithMetadata with
    | some i => i.metadata
    | none => none
  let conversationHistory : List ConversationMessage :=
    match metadata with
    | some m => m.conversation_history.getD []
    | none => []
  let collectedData : CollectedData :=
    match metadata with
    | some m => m.collected_data.getD {}
    | none => {}
  let firstUserMessage : Option String :=
    match sorted.find? (fun i => jsTruthy i.user_message) with
    | some i => i.user_message
    | none =>
      match conversationHistory.find? (fun m => m.role == "user") with
      | some m => if m.content == "" then none else some m.content
      | none => none
  { session_id := session_id
    started_at := (sorted.headD default).created_at
    last_activity := (sorted.getLastD default).created_at
    interaction_count := sorted.length
    lead_id :=
      match sorted.find? (fun i => jsTruthy i.lead_id) with
      | some i => i.lead_id
      | none => none
    lead_name := if jsTruthy collectedData.name then collectedData.name else none
    first_message := firstUserMessage
    conversation_history := conversationHistory
    collected_data := collectedData
    has_url_scraped := sorted.any (fun i => jsTruthy i.url_scraped)
    interactions := sorted }

/-- Comparator `(a, b) => bLast - aLast` of the final descending sort. -/
def byLastActivityDesc (a b : GroupedSession) : Prop := b.last_activity ≤ a.last_activity

instance : DecidableRel byLastActivityDesc := fun a b => Nat.decLe b.last_activity a.last_activity

instance : IsTotal GroupedSession byLastActivityDesc := ⟨fun a b => Nat.le_total b.last_activity a.last_activity⟩

instance : IsTrans GroupedSession byLastActivityDesc := ⟨fun _ _ _ h h' => Nat.le_trans h' h⟩

/-- Embedding of `groupedSessions`: group by session id, derive each session,
sort by last activity descending. -/
def groupedSessions (interactions : List ChatInteraction) : List GroupedSession :=
  List.insertionSort byLastActivityDesc
    ((buildSessionMap interactions).map (fun e => mkGroupedSession e.1 e.2))

/-- The chat bubbles one interaction contributes in the detail modal's
fallback: its user message then its assistant message, each only when truthy. -/
def interactionMessages (i : ChatInteraction) : List ConversationMessage :=
  (if jsTruthy i.user_message then [⟨"user", i.user_message.getD ""⟩] else []) ++
  (if jsTruthy i.assistant_message then [⟨"assistant", i.assistant_message.getD ""⟩] else [])

/-- The detail modal's fallback list (ConversationDetailModal.tsx):
`interactions.filter(i => i.user_message || i.assistant_message)`, then for
each a user bubble and an assistant bubble when present. -/
def flattenedMessages (l : List ChatInteraction) : List ConversationMessage :=
  (l.filter (fun i => jsTruthy i.user_message || jsTruthy i.assistant_message)).flatMap
    interactionMessages

/-- The message list the dashboard shows for a session: the embedded
history when nonempty, otherwise the flattened fallback. -/
def sessionMessageList (s : GroupedSession) : List ConversationMessage :=
  if 0 < s.conversation_history.length then s.conversation_history
  else flattenedMessages s.interactions

end Conversations

/-- Sample interaction used to instantiate the aggregation theorems. -/
def demoInteractionA : Conversations.ChatInteraction :=
  { id := "a", session_id := "s1", interaction_type := "chat",
    user_message := some "hello", assistant_message := some "hi there",
    url_scraped := none, lead_id := none, metadata := none, created_at := 5 }

/-- Second sample interaction of the same session, later in time. -/
def demoInteractionB : Conversations.ChatInteraction :=
  { id := "b", session_id := "s1", interaction_type := "chat",
    user_message := none, assistant_message := some "anything else?",
    url_scraped := none, lead_id := none, metadata := none, created_at := 9 }

def demoSessionList : List Conversations.ChatInteraction := [demoInteractionB, demoInteractionA]

def demoGrouped : Conversations.GroupedSession :=
  Conversations.mkGroupedSession "s1" [demoInteractionB, demoInteractionA]

/-- Interaction carrying a non-null but empty user message and no metadata. -/
def emptyMsgInteraction : Conversations.ChatInteraction :=
  { id := "e1", session_id := "s2", interaction_type := "chat",
    user_message := some "", assistant_message := none, url_scraped := none,
    lead_id := none, metadata := none, created_at := 3 }

namespace CSVExport

/-! Embedding of the two client-side CSV exports: `escapeCSVField` and
`handleExportCSV` of `ChatTab.tsx` (lines 273-307) and `handleExportCSV` of
`LeadsTab.tsx` (lines 84-107).  Fields are lists of characters. -/

/-- The guard of `escapeCSVField`: the field `includes` a comma, a double
quote, a newline or a carriage return. -/
def containsSpecial (s : List Char) : Bool :=
  decide (',' ∈ s) || decide ('"' ∈ s) || decide ('\n' ∈ s) || decide ('\r' ∈ s)

/-- JS `field.replace(/"/g, '""')`: every double quote is doubled. -/
def dupQuotes : List Char → List Char
  | [] => []
  | c :: rest => if c = '"' then '"' :: '"' :: dupQuotes rest else c :: dupQuotes rest

/-- Embedding of `escapeCSVField` (ChatTab.tsx): wrap in double quotes with
internal quotes doubled when the field holds a special character, else
return it unchanged. -/
def escapeCSVField (s : List Char) : List Char :=
  if containsSpecial s then '"' :: (dupQuotes s ++ ['"']) else s

/-- Collapse of doubled double quotes, the inverse step of a standard CSV
parser once the enclosing quotes are stripped. -/
def collapseQuotes : List Char → List Char
  | [] => []
  | [c] => [c]
  | c :: d :: rest =>
    if c = '"' ∧ d = '"' then '"' :: collapseQuotes rest
    else c :: collapseQuotes (d :: rest)

/-- Standard CSV parsing of one emitted field: a field enclosed in double
quotes is stripped of them and its doubled quotes collapsed; any other
field is taken verbatim. -/
def parseCSVField (s : List Char) : List Char :=
  if 2 ≤ s.length ∧ s.head? = some '"' ∧ s.getLast? = some '"' then
    collapseQuotes (s.dropLast.drop 1)
  else s

/-- String-level wrapper of `escapeCSVField`. -/
def escapeFieldS (s : String) : String := String.mk (escapeCSVField s.data)

/-- The lead attributes either export reads; `created_at_formatted` stands
for `format(new Date(l.created_at), 'yyyy-MM-dd')`, the date library being
an external collaborator. -/
structure ExportLead where
  full_name : String
  email : String
  phone : Option String := none
  website : Option String := none
  industry : Option String := none
  source : Option String := none
  lead_score : Option Int := none
  qualification_status : Option String := none
  created_at_formatted : String
  archived : Bool := false
deriving DecidableEq, Repr

/-- JS `l.lead_score?.toString() || '0'`. -/
def scoreStr : Option Int → String
  | some n => toString n
  | none => "0"

/-- One data row of ChatTab's `handleExportCSV`: every text field goes
through `escapeCSVField`; score, date and the Yes/No flag are emitted bare. -/
def chatTabRow (l : ExportLead) : List String :=
  [escapeFieldS l.full_name,
   escapeFieldS l.email,
   escapeFieldS (l.phone.getD ""),
   escapeFieldS (l.website.getD ""),
   escapeFieldS (l.industry.getD ""),
   escapeFieldS (l.source.getD ""),
   scoreStr l.lead_score,
   escapeFieldS (l.qualification_status.getD ""),
   l.created_at_formatted,
   if l.archived then "Yes" else "No"]

/-- One data row of LeadsTab's `handleExportCSV`: the fields are emitted
verbatim, with no escaping at all. -/
def leadsTabRow (l : ExportLead) : List String :=
  [l.full_name,
   l.email,
   l.phone.getD "",
   l.website.getD "",
   l.industry.getD "",
   l.source.getD "",
   scoreStr l.lead_score,
   l.created_at_formatted]

end CSVExport

/-- A lead whose name holds a comma, for the export theorems. -/
def c4lead : CSVExport.ExportLead :=
  { full_name := "Doe, Jane", email := "jane@example.com",
    created_at_formatted := "2026-01-05" }

namespace Capture

/-! Embedding of the chat edge function's lead-capture rule: its
`calculateLeadScore` and the lookup / update / insert block of the request
handler, the lead table modelled as a list of rows.  Store writes are
modelled as succeeding (a write error is only logged by the code and does
not change which path was taken). -/

/-- One lead row, restricted to the columns the capture rule reads or
writes.  `email` and `notes` are non-nullable in the schema. -/
structure Lead where
  id : Nat
  email : String
  full_name : String
  source : String
  lead_score : Option Int
  notes : String
  website : Option String
  phone : Option String
deriving DecidableEq, Repr

/-- Embedding of the capture-time `calculateLeadScore`: presence flags for
name, email, website and phone. -/
def calculateLeadScore (name email website phone : Bool) : Int :=
  let score : Int := 0
  let score := score + (if name then 20 else 0)
  let score := score + (if email then 30 else 0)
  let score := score + (if website then 25 else 0)
  let score := score + (if phone then 15 else 0)
  score

/-- The partial `updates` object built on the existing-lead path. -/
structure LeadUpdates where
  email : Option String := none
  website : Option String := none
  phone : Option String := none
  lead_score : Option Int := none
deriving DecidableEq, Repr

/-- JS `Object.keys(updates).length > 0` is false exactly when no field was set. -/
def LeadUpdates.isEmpty (u : LeadUpdates) : Bool :=
  u.email == none && u.website == none && u.phone == none && u.lead_score == none

/-- Applying an `updates` object to a row: set fields appear, absent fields
keep the stored value. -/
def applyUpdates (l : Lead) (u : LeadUpdates) : Lead :=
  { l with
    email := match u.email with | some e => e | none => l.email
    website := match u.website with | some w => some w | none => l.website
    phone := match u.phone with | some p => some p | none => l.phone
    lead_score := match u.lead_score with | some s => some s | none => l.lead_score }

/-- Lookup `.eq('email', detectedEmail).maybeSingle()`. -/
def findByEmail (store : List Lead) (e : String) : Option Lead :=
  store.find? (fun l => l.email == e)

/-- Lookup `.eq('source', 'chatbot').eq('notes', session:...).maybeSingle()`. -/
def findBySession (store : List Lead) (sid : String) : Option Lead :=
  store.find? (fun l => l.source == "chatbot" && l.notes == ("session:" ++ sid))

/-- The existing-lead lookup: by detected email first (when truthy), else by
the session key stashed in `notes`. -/
def captureLookup (store : List Lead) (detectedEmail : Option String) (sessionId : String) :
    Option Lead :=
  let byEmail : Option Lead :=
    match detectedEmail with
    | some e => if e == "" then none else findByEmail store e
    | none => none
  match byEmail with
  | some l => some l
  | none => findBySession store sessionId

/-- The `updates` object of the existing-lead path: email only when the
stored one is falsy, website only when the stored one is falsy, phone always
when detected, lead_score only when strictly higher than the stored score
(`existingLead.lead_score || 0`). -/
def captureUpdates (l : Lead) (detectedEmail detectedWebsite detectedPhone : Option String)
    (leadScore : Int) : LeadUpdates :=
  { email := if jsTruthy detectedEmail && (l.email == "") then detectedEmail else none
    website := if jsTruthy detectedWebsite && !(jsTruthy l.website) then detectedWebsite else none
    phone := if jsTruthy detectedPhone then detectedPhone else none
    lead_score := if l.lead_score.getD 0 < leadScore then some leadScore else none }

inductive CaptureAction where
  | inserted (l : Lead)
  | updated (id : Nat) (u : LeadUpdates)
  | noop
deriving DecidableEq, Repr

structure CaptureResult where
  store : List Lead
  action : CaptureAction
deriving DecidableEq, Repr

/-- One invocation of the capture rule's lead block, given the signals
detected from the accumulated user messages.  `newId` stands for the row
identifier the store generates on insert. -/
def captureStep (store : List Lead)
    (detectedEmail detectedWebsite detectedName detectedPhone : Option String)
    (sessionId : String) (newId : Nat) : CaptureResult :=
  if jsTruthy detectedName && !(sessionId == "") then
    let leadScore := calculateLeadScore (jsTruthy detectedName) (jsTruthy detectedEmail)
      (jsTruthy detectedWebsite) (jsTruthy detectedPhone)
    match captureLookup store detectedEmail sessionId with
    | some existingLead =>
      let u := captureUpdates existingLead detectedEmail detectedWebsite detectedPhone leadScore
      if u.isEmpty then { store := store, action := .noop }
      else
        { store := store.map (fun l => if l.id == existingLead.id then applyUpdates l u else l)
          action := .updated existingLead.id u }
    | none =>
      let placeholderEmail :=
        match detectedEmail with
        | some e => if e == "" then "pending_" ++ sessionId ++ "@chatbot.temp" else e
        | none => "pending_" ++ sessionId ++ "@chatbot.temp"
      let newLead : Lead :=
        { id := newId
          email := placeholderEmail
          full_name := detectedName.getD ""
          source := "chatbot"
          lead_score := some leadScore
          notes := "session:" ++ sessionId
          website := if jsTruthy detectedWebsite then detectedWebsite else none
          phone := if jsTruthy detectedPhone then detectedPhone else none }
      { store := store ++ [newLead], action := .inserted newLead }
  else { store := store, action := .noop }

end Capture

/-- An existing stored lead for the capture-rule theorems. -/
def c5lead : Capture.Lead :=
  { id := 7, email := "a@b.cc", full_name := "Ann", source := "chatbot",
    lead_score := some 10, notes := "session:s1", website := none, phone := none }

/-- The lead the capture rule inserts from an empty store when it has
detected the name "Dana" and the email "x@y.zz" in session "s". -/
def c9lead : Capture.Lead :=
  { id := 1, email := "x@y.zz", full_name := "Dana", source := "chatbot",
    lead_score := some 50, notes := "session:s", website := none, phone := none }

namespace Enrich

/-! Embedding of `supabase/functions/enrich-lead/index.ts`: the handler body
after authorization, as a function of the two collaborator outcomes.  A
collaborator call either yields its parsed payload or throws (network error,
non-JSON body), which the surrounding `try` turns into a plain
`{ error }` 500 response with no `success` field. -/

/-- The structured fields the AI extraction may produce. -/
structure Extracted where
  industry : Option String := none
  phone : Option String := none
  summary : Option String := none
deriving DecidableEq, Repr

/-- The scrape response body: `scrapeData.data?.markdown` and
`scrapeData.markdown`. -/
structure ScrapeData where
  dataMarkdown : Option String := none
  markdown : Option String := none
deriving DecidableEq, Repr

/-- The AI response, reduced to what the handler reads: the parsed tool-call
arguments when a tool call is present and its arguments parse (`none`
otherwise), and the parsed JSON object found in the message content for the
fallback (`none` when there is no content, no `{...}` match, or the parse
throws). -/
structure AiData where
  toolExtracted : Option Extracted := none
  contentExtracted : Option Extracted := none
deriving DecidableEq, Repr

inductive FetchResult (α : Type) where
  | ok (a : α)
  | thrown (msg : String)
deriving DecidableEq, Repr

/-- The JSON body of the handler's response, reduced to the fields the spec
talks about: the optional `success` flag, the optional `error` message, and
the HTTP status. -/
structure EnrichResponse where
  success : Option Bool := none
  error : Option String := none
  status : Nat := 200
deriving DecidableEq, Repr

/-- The `updates` object written to the lead row. -/
structure EnrichUpdates where
  industry : Option String := none
  phone : Option String := none
  notes : Option String := none
deriving DecidableEq, Repr

/-- What one invocation does: the response it returns and whether it issued
a lead update (and with which fields). -/
structure EnrichOutcome where
  response : EnrichResponse
  updateIssued : Bool := false
  leadUpdate : Option EnrichUpdates := none
deriving DecidableEq, Repr

/-- JS `a || b || ''` over two optional strings. -/
def jsOrStr (a b : Option String) : String :=
  if jsTruthy a then a.getD "" else if jsTruthy b then b.getD "" else ""

/-- `scrapeData.data?.markdown || scrapeData.markdown || ''`. -/
def scrapedContentOf (d : ScrapeData) : String := jsOrStr d.dataMarkdown d.markdown

/-- The extraction logic: tool-call arguments first; when the result has no
truthy industry and no truthy phone, fall back to the JSON object parsed
from the message content, keeping the previous value when that fails. -/
def extractedOf (ai : AiData) : Extracted :=
  let e1 := ai.toolExtracted.getD {}
  if !(jsTruthy e1.industry) && !(jsTruthy e1.phone) then
    match ai.contentExtracted with
    | some e2 => e2
    | none => e1
  else e1

/-- The `updates` object: each lead field set only when the extracted value
is truthy (summary lands in `notes`). -/
def updatesOf (e : Extracted) : EnrichUpdates :=
  { industry := if jsTruthy e.industry then e.industry else none
    phone := if jsTruthy e.phone then e.phone else none
    notes := if jsTruthy e.summary then e.summary else none }

/-- JS `Object.keys(updates).length > 0` is false exactly when nothing was set. -/
def EnrichUpdates.isEmpty (u : EnrichUpdates) : Bool :=
  u.industry == none && u.phone == none && u.notes == none

/-- The handler body as a function of the request fields, the scrape
outcome, the AI outcome and whether the row update succeeds. -/
def enrichServe (leadId url : String) (scrape : FetchResult ScrapeData)
    (ai : FetchResult AiData) (dbUpdateOk : Bool) : EnrichOutcome :=
  if leadId == "" || url == "" then
    { response := { error := some "leadId and url required", status := 400 } }
  else
    match scrape with
    | .thrown msg => { response := { error := some msg, status := 500 } }
    | .ok sd =>
      if scrapedContentOf sd == "" then
        { response := { success := some false, error := some "No content scraped", status := 200 } }
      else
        match ai with
        | .thrown msg => { response := { error := some msg, status := 500 } }
        | .ok aid =>
          let updates := updatesOf (extractedOf aid)
          if updates.isEmpty then
            { response := { success := some true, status := 200 } }
          else if dbUpdateOk then
            { response := { success := some true, status := 200 }
              updateIssued := true, leadUpdate := some updates }
          else
            { response := { success := some false, error := some "Failed to update lead", status := 500 }
              updateIssued := true }

end Enrich

namespace Capture

/-! Embedding of `extractEmail` of the chat edge function: the first match
of `/[a-zA-Z0-9._%+-]+@[a-zA-Z0-9.-]+\.[a-zA-Z]{2,}/` in the text,
lowercased (`match[0].toLowerCase()`), or `null`.  Text is the list of code
points; the pattern only ever matches ASCII, where `toLowerCase` maps codes
65..90 to 97..122 and fixes the rest. -/

/-- Membership in `[a-zA-Z0-9._%+-]` (letters, digits, '.', '_', '%', '+', '-'). -/
def isLocalChar (n : Nat) : Bool :=
  decide ((65 ≤ n ∧ n ≤ 90) ∨ (97 ≤ n ∧ n ≤ 122) ∨ (48 ≤ n ∧ n ≤ 57) ∨
    n = 46 ∨ n = 95 ∨ n = 37 ∨ n = 43 ∨ n = 45)

/-- Membership in `[a-zA-Z0-9.-]`. -/
def isDomainChar (n : Nat) : Bool :=
  decide ((65 ≤ n ∧ n ≤ 90) ∨ (97 ≤ n ∧ n ≤ 122) ∨ (48 ≤ n ∧ n ≤ 57) ∨
    n = 46 ∨ n = 45)

/-- Membership in `[a-zA-Z]`. -/
def isAsciiLetter (n : Nat) : Bool :=
  decide ((65 ≤ n ∧ n ≤ 90) ∨ (97 ≤ n ∧ n ≤ 122))

/-- Lowercasing of one code point: 'A'..'Z' shift to 'a'..'z', all else fixed. -/
def toLowerCode (n : Nat) : Nat := if 65 ≤ n ∧ n ≤ 90 then n + 32 else n

/-- Length of the maximal prefix run satisfying `p`: what a greedy `+` or
`{2,}` consumes when no later pattern part constrains it. -/
def runLength (p : Nat → Bool) : List Nat → Nat
  | [] => 0
  | c :: rest => if p c then runLength p rest + 1 else 0

/-- Backtracking of the greedy domain `[a-zA-Z0-9.-]+` against the
`\.[a-zA-Z]{2,}` tail: try domain lengths from the maximal run downwards; at
length `m` the dot must sit at index `m` of `rest`, followed by a letter run
of length at least 2 (taken greedily, as the pattern ends there).  Returns
the chosen domain length and TLD run length. -/
def tryDot (rest : List Nat) : Nat → Option (Nat × Nat)
  | 0 => none
  | d + 1 =>
    match rest.drop (d + 1) with
    | dot :: tl =>
      if dot == 46 then
        (if 2 ≤ runLength isAsciiLetter tl then some (d + 1, runLength isAsciiLetter tl)
         else tryDot rest d)
      else tryDot rest d
    | [] => tryDot rest d

/-- Match attempt anchored at the head of `cs`: the greedy local run must be
nonempty and be followed by '@' (code 64) — shortening the local `+` by
backtracking can never help, as the freed positions hold local characters,
never '@' — then the domain/TLD backtrack decides the rest. -/
def emailMatchAt (cs : List Nat) : Option (List Nat) :=
  if runLength isLocalChar cs == 0 then none
  else
    match cs.drop (runLength isLocalChar cs) with
    | a :: rest =>
      if a == 64 then
        match tryDot rest (runLength isDomainChar rest) with
        | some (d, A) => some (cs.take (runLength isLocalChar cs + 1 + d + 1 + A))
        | none => none
      else none
    | [] => none

/-- Leftmost match: try each start position left to right, as the JS regex
engine does for an unanchored pattern. -/
def findEmailMatch : List Nat → Option (List Nat)
  | [] => none
  | c :: tl =>
    match emailMatchAt (c :: tl) with
    | some m => some m
    | none => findEmailMatch tl

/-- Embedding of `extractEmail`: the first match lowercased, else `null`. -/
def extractEmail (cs : List Nat) : Option (List Nat) :=
  (findEmailMatch cs).map (fun m => m.map toLowerCode)

end Capture

/-- Code points of a string, for concrete email-extraction inputs. -/
def codesOf (s : String) : List Nat := s.data.map Char.toNat

/-- C1: for every feature record, `calculateLeadScore` equals the sum of the
independent contributions: the source base (project_plan_modal 30,
chatbot_with_url 25, use-case/vertical pages 20, chatbot 15, hero_modal 10,
unrecognized 0), plus the non-cumulative message-count bracket bonus
(≥11 → +35, 7-10 → +25, 4-6 → +15, 2-3 → +5, 0-1 → +0), plus the intent
bonuses (pricing +15, timeline +15, specificService +10, urgency +10, each
exactly when the flag is true), plus +10 for hasWebsite and +10 for
hasAiFeedback. -/
theorem c1_lead_score_is_sum_of_contributions (input : Dashboard.LeadScoreInput) :
    Dashboard.calculateLeadScore input = Dashboard.specLeadScore input := by
  obtain ⟨src, mc, sig, hw, hf⟩ := input
  unfold Dashboard.calculateLeadScore Dashboard.specLeadScore
    Dashboard.specEngagementBonus Dashboard.specSourceBase Dashboard.flagTrue
  cases mc with
  | none =>
    cases sig <;> simp <;> omega
  | some n =>
    cases sig <;> simp <;> split_ifs <;> omega

/-- C2: `getQualificationStatus` maps every integer score to exactly one of the
four tiers with exhaustive, non-overlapping boundaries — hot iff score ≥ 70,
warm iff 40 ≤ score < 70, cool iff 20 ≤ score < 40, cold iff score < 20 —
and in particular 70 → hot, 69 → warm, 40 → warm, 39 → cool, 20 → cool,
19 → cold. -/
theorem c2_qualification_boundaries :
    (∀ s : Int,
      (Dashboard.getQualificationStatus s = .hot ↔ 70 ≤ s) ∧
      (Dashboard.getQualificationStatus s = .warm ↔ 40 ≤ s ∧ s < 70) ∧
      (Dashboard.getQualificationStatus s = .cool ↔ 20 ≤ s ∧ s < 40) ∧
      (Dashboard.getQualificationStatus s = .cold ↔ s < 20)) ∧
    Dashboard.getQualificationStatus 70 = .hot ∧
    Dashboard.getQualificationStatus 69 = .warm ∧
    Dashboard.getQualificationStatus 40 = .warm ∧
    Dashboard.getQualificationStatus 39 = .cool ∧
    Dashboard.getQualificationStatus 20 = .cool ∧
    Dashboard.getQualificationStatus 19 = .cold := by
  refine ⟨fun s => ?_, by decide, by decide, by decide, by decide, by decide, by decide⟩
  unfold Dashboard.getQualificationStatus
  split_ifs with h1 h2 h3 <;> refine ⟨?_, ?_, ?_, ?_⟩ <;> simp <;> omega

namespace Conversations

theorem lookupGroup_eraseKey_ne (m : List (String × List ChatInteraction)) (k k' : String)
    (h : k ≠ k') : lookupGroup (eraseKey m k') k = lookupGroup m k := by
  induction m with
  | nil => rfl
  | cons e rest ih =>
    obtain ⟨k₀, g₀⟩ := e
    by_cases h0 : k₀ = k'
    · subst h0
      have h1 : eraseKey ((k₀, g₀) :: rest) k₀ = eraseKey rest k₀ := if_pos rfl
      have h2 : lookupGroup ((k₀, g₀) :: rest) k = lookupGroup rest k :=
        if_neg (fun hk => h hk.symm)
      rw [h1, ih, h2]
    · have h1 : eraseKey ((k₀, g₀) :: rest) k' = (k₀, g₀) :: eraseKey rest k' := if_neg h0
      rw [h1]
      show (if k₀ = k then g₀ else lookupGroup (eraseKey rest k') k) =
        (if k₀ = k then g₀ else lookupGroup rest k)
      by_cases h2 : k₀ = k
      · rw [if_pos h2, if_pos h2]
      · rw [if_neg h2, if_neg h2, ih]

theorem lookupGroup_buildSessionMap (l : List ChatInteraction) (k : String) :
    lookupGroup (buildSessionMap l) k = l.filter (fun i => i.session_id == k) := by
  induction l with
  | nil => rfl
  | cons i rest ih =>
    by_cases h : i.session_id = k
    · subst h
      show (if i.session_id = i.session_id then i :: lookupGroup (buildSessionMap rest) i.session_id
        else lookupGroup (eraseKey (buildSessionMap rest) i.session_id) i.session_id) = _
      rw [if_pos rfl, ih, List.filter_cons_of_pos (by simp)]
    · show (if i.session_id = k then i :: lookupGroup (buildSessionMap rest) i.session_id
        else lookupGroup (eraseKey (buildSessionMap rest) i.session_id) k) = _
      rw [if_neg h, lookupGroup_eraseKey_ne _ _ _ (fun hk => h hk.symm), ih,
        List.filter_cons_of_neg (by simp [h])]

theorem mem_eraseKey (m : List (String × List ChatInteraction)) (k' : String)
    (e : String × List ChatInteraction) (he : e ∈ eraseKey m k') : e ∈ m ∧ e.1 ≠ k' := by
  induction m with
  | nil => cases he
  | cons e₀ rest ih =>
    obtain ⟨k₀, g₀⟩ := e₀
    by_cases h0 : k₀ = k'
    · rw [show eraseKey ((k₀, g₀) :: rest) k' = eraseKey rest k' from if_pos h0] at he
      exact ⟨List.mem_cons_of_mem _ (ih he).1, (ih he).2⟩
    · rw [show eraseKey ((k₀, g₀) :: rest) k' = (k₀, g₀) :: eraseKey rest k' from if_neg h0] at he
      rcases List.mem_cons.mp he with h | h
      · exact ⟨List.mem_cons.mpr (Or.inl h), by simp [h, h0]⟩
      · exact ⟨List.mem_cons_of_mem _ (ih h).1, (ih h).2⟩

theorem mem_buildSessionMap (l : List ChatInteraction) (e : String × List ChatInteraction)
    (he : e ∈ buildSessionMap l) :
    e.2 = l.filter (fun i => i.session_id == e.1) ∧ e.2 ≠ [] := by
  induction l generalizing e with
  | nil => cases he
  | cons i rest ih =>
    have he' : e ∈ (i.session_id, i :: lookupGroup (buildSessionMap rest) i.session_id) ::
        eraseKey (buildSessionMap rest) i.session_id := he
    rcases List.mem_cons.mp he' with h | h
    · subst h
      simp only [lookupGroup_buildSessionMap]
      exact ⟨by rw [List.filter_cons_of_pos (by simp)], by simp⟩
    · obtain ⟨hm, hne⟩ := mem_eraseKey _ _ _ h
      obtain ⟨hfil, hne2⟩ := ih e hm
      refine ⟨?_, hne2⟩
      rw [List.filter_cons_of_neg (by simp; exact fun hk => hne hk.symm), hfil]

theorem sorted_headD_le (l : List ChatInteraction) (h : List.Sorted byCreatedAt l) :
    ∀ x ∈ l, (l.headD default).created_at ≤ x.created_at := by
  cases l with
  | nil => simp
  | cons a t =>
    intro x hx
    rcases List.mem_cons.mp hx with h1 | h1
    · subst h1; exact Nat.le_refl _
    · exact List.rel_of_sorted_cons h x h1

theorem le_sorted_getLastD (l : List ChatInteraction) (h : List.Sorted byCreatedAt l) :
    ∀ x ∈ l, x.created_at ≤ (l.getLastD default).created_at := by
  induction l with
  | nil => simp
  | cons a t ih =>
    intro x hx
    rw [List.getLastD_cons]
    have hrest : List.Sorted byCreatedAt t := (List.sorted_cons.mp h).2
    cases t with
    | nil =>
      rcases List.mem_cons.mp hx with h1 | h1
      · subst h1; exact Nat.le_refl _
      · cases h1
    | cons b t' =>
      have hd : ((b :: t').getLastD a).created_at = ((b :: t').getLastD default).created_at := by
        rw [List.getLastD_cons, List.getLastD_cons]
      rcases List.mem_cons.mp hx with h1 | h1
      · rw [h1]
        rcases List.mem_cons.mp (List.getLastD_mem_cons (b :: t') a) with h2 | h2
        · rw [h2]
        · exact List.rel_of_sorted_cons h _ h2
      · rw [hd]
        exact ih hrest x h1

theorem mem_groupedSessions (l : List ChatInteraction) (g : GroupedSession)
    (hg : g ∈ groupedSessions l) :
    ∃ e ∈ buildSessionMap l, g = mkGroupedSession e.1 e.2 := by
  unfold groupedSessions at hg
  rw [List.mem_insertionSort] at hg
  obtain ⟨e, he, hge⟩ := List.mem_map.mp hg
  exact ⟨e, he, hge.symm⟩

theorem mkGroupedSession_count (k : String) (grp : List ChatInteraction) :
    (mkGroupedSession k grp).interaction_count = grp.length := by
  show (sortChronological grp).length = grp.length
  exact List.length_insertionSort _ _

end Conversations

/-- C7: for every non-empty interaction list, every Grouped Session the
aggregation produces satisfies `started_at ≤ last_activity` (with
`started_at` a lower and `last_activity` an upper bound on every member's
creation timestamp), and its `interaction_count` equals the number of input
interactions sharing its session identifier. -/
theorem c7_session_bounds_and_count (l : List Conversations.ChatInteraction) (hl : l ≠ [])
    (g : Conversations.GroupedSession) (hg : g ∈ Conversations.groupedSessions l) :
    g.started_at ≤ g.last_activity ∧
    g.interaction_count = (l.filter (fun i => i.session_id == g.session_id)).length ∧
    (∀ i ∈ g.interactions, g.started_at ≤ i.created_at ∧ i.created_at ≤ g.last_activity) := by
  obtain ⟨e, he, hge⟩ := Conversations.mem_groupedSessions l g hg
  obtain ⟨hfil, hne⟩ := Conversations.mem_buildSessionMap l e he
  have hsid : g.session_id = e.1 := by rw [hge]; rfl
  have hint : g.interactions = Conversations.sortChronological e.2 := by rw [hge]; rfl
  have hsorted : List.Sorted Conversations.byCreatedAt g.interactions := by
    rw [hint]; exact List.sorted_insertionSort _ _
  have hcount : g.interaction_count = e.2.length := by
    rw [hge, Conversations.mkGroupedSession_count]
  have hlen : (Conversations.sortChronological e.2).length = e.2.length :=
    List.length_insertionSort _ _
  have hnes : g.interactions ≠ [] := by
    rw [hint]
    intro hx
    rw [hx] at hlen
    exact hne (List.length_eq_zero.mp hlen.symm)
  have hstart : g.started_at = (g.interactions.headD default).created_at := by
    rw [hge]; rfl
  have hlastv : g.last_activity = (g.interactions.getLastD default).created_at := by
    rw [hge]; rfl
  have hbounds : ∀ i ∈ g.interactions,
      g.started_at ≤ i.created_at ∧ i.created_at ≤ g.last_activity := by
    intro i hi
    constructor
    · rw [hstart]; exact Conversations.sorted_headD_le _ hsorted i hi
    · rw [hlastv]; exact Conversations.le_sorted_getLastD _ hsorted i hi
  refine ⟨?_, ?_, hbounds⟩
  · have hhead : g.interactions.headD default ∈ g.interactions := by
      cases hx : g.interactions with
      | nil => exact absurd hx hnes
      | cons a t => simp
    have hb := hbounds _ hhead
    rw [hstart]
    exact hb.2
  · rw [hcount, hfil, hsid]

/-- C7 witness: the two-interaction sample session, hypotheses discharged
concretely. -/
theorem c7_witness :
    demoGrouped.started_at ≤ demoGrouped.last_activity ∧
    demoGrouped.interaction_count =
      (demoSessionList.filter (fun i => i.session_id == demoGrouped.session_id)).length ∧
    (∀ i ∈ demoGrouped.interactions,
      demoGrouped.started_at ≤ i.created_at ∧ i.created_at ≤ demoGrouped.last_activity) :=
  c7_session_bounds_and_count demoSessionList (by decide) demoGrouped (by decide)

namespace Conversations

theorem mkGroupedSession_no_metadata (k : String) (grp : List ChatInteraction)
    (h : grp.filter (fun i => i.metadata.isSome) = []) :
    (mkGroupedSession k grp).conversation_history = [] ∧
    (mkGroupedSession k grp).collected_data = {} := by
  unfold mkGroupedSession
  rw [h]
  simp [List.insertionSort]

theorem mem_flattenedMessages_user (l : List ChatInteraction) (i : ChatInteraction)
    (hi : i ∈ l) (ht : jsTruthy i.user_message = true) :
    ConversationMessage.mk "user" (i.user_message.getD "") ∈ flattenedMessages l := by
  unfold flattenedMessages
  refine List.mem_flatMap.mpr ⟨i, List.mem_filter.mpr ⟨hi, by rw [ht]; rfl⟩, ?_⟩
  unfold interactionMessages
  rw [ht]
  simp

theorem mem_flattenedMessages_assistant (l : List ChatInteraction) (i : ChatInteraction)
    (hi : i ∈ l) (ht : jsTruthy i.assistant_message = true) :
    ConversationMessage.mk "assistant" (i.assistant_message.getD "") ∈ flattenedMessages l := by
  unfold flattenedMessages
  refine List.mem_flatMap.mpr ⟨i, List.mem_filter.mpr ⟨hi, by rw [ht]; simp⟩, ?_⟩
  unfold interactionMessages
  rw [ht]
  simp

end Conversations

/-- C3: for every session group in which no interaction carries metadata, the
aggregation still yields a valid Grouped Session whose collected-data is
empty and whose embedded history is empty, so its displayed message list is
the chronological flattening of the interactions' user/assistant fields; that
flattened list contains every non-null, non-empty (JS-truthy) user and
assistant message of the group, with the interactions in creation-timestamp
ascending order. -/
theorem c3_no_metadata_flattened (l : List Conversations.ChatInteraction)
    (g : Conversations.GroupedSession) (hg : g ∈ Conversations.groupedSessions l)
    (hmeta : ∀ i ∈ g.interactions, i.metadata = none) :
    g.collected_data = {} ∧
    g.conversation_history = [] ∧
    Conversations.sessionMessageList g = Conversations.flattenedMessages g.interactions ∧
    List.Sorted Conversations.byCreatedAt g.interactions ∧
    (∀ i ∈ g.interactions,
      (jsTruthy i.user_message = true →
        Conversations.ConversationMessage.mk "user" (i.user_message.getD "") ∈
          Conversations.sessionMessageList g) ∧
      (jsTruthy i.assistant_message = true →
        Conversations.ConversationMessage.mk "assistant" (i.assistant_message.getD "") ∈
          Conversations.sessionMessageList g)) := by
  obtain ⟨e, he, hge⟩ := Conversations.mem_groupedSessions l g hg
  have hint : g.interactions = Conversations.sortChronological e.2 := by rw [hge]; rfl
  have hsorted : List.Sorted Conversations.byCreatedAt g.interactions := by
    rw [hint]; exact List.sorted_insertionSort _ _
  have hfilnil : e.2.filter (fun i => i.metadata.isSome) = [] := by
    refine List.filter_eq_nil_iff.mpr (fun i hi => ?_)
    have hmem : i ∈ g.interactions := by
      rw [hint]
      exact (List.mem_insertionSort _).mpr hi
    rw [hmeta i hmem]
    simp
  obtain ⟨hhist, hcoll⟩ := Conversations.mkGroupedSession_no_metadata e.1 e.2 hfilnil
  have hhist' : g.conversation_history = [] := by rw [hge]; exact hhist
  have hcoll' : g.collected_data = {} := by rw [hge]; exact hcoll
  have hlist : Conversations.sessionMessageList g = Conversations.flattenedMessages g.interactions := by
    unfold Conversations.sessionMessageList
    rw [hhist']
    simp
  refine ⟨hcoll', hhist', hlist, hsorted, fun i hi => ⟨fun ht => ?_, fun ht => ?_⟩⟩
  · rw [hlist]
    exact Conversations.mem_flattenedMessages_user _ i hi ht
  · rw [hlist]
    exact Conversations.mem_flattenedMessages_assistant _ i hi ht

/-- C3 witness: the sample metadata-free session, hypotheses discharged
concretely. -/
theorem c3_witness :
    demoGrouped.collected_data = {} ∧
    demoGrouped.conversation_history = [] ∧
    Conversations.sessionMessageList demoGrouped =
      Conversations.flattenedMessages demoGrouped.interactions ∧
    List.Sorted Conversations.byCreatedAt demoGrouped.interactions ∧
    (∀ i ∈ demoGrouped.interactions,
      (jsTruthy i.user_message = true →
        Conversations.ConversationMessage.mk "user" (i.user_message.getD "") ∈
          Conversations.sessionMessageList demoGrouped) ∧
      (jsTruthy i.assistant_message = true →
        Conversations.ConversationMessage.mk "assistant" (i.assistant_message.getD "") ∈
          Conversations.sessionMessageList demoGrouped)) :=
  c3_no_metadata_flattened demoSessionList demoGrouped (by decide) (by decide)

/-- C3 counterexample: an interaction whose user message is non-null but
empty (`""`) is JS-falsy, so the synthesized message list of its
metadata-free session is empty and omits that non-null user message,
against the claim's "contains every non-null user/assistant message". -/
theorem c3_counterexample :
    emptyMsgInteraction.user_message = some "" ∧
    (Conversations.groupedSessions [emptyMsgInteraction]).map
      (fun g => g.interactions.map (fun i => i.metadata)) = [[none]] ∧
    (Conversations.groupedSessions [emptyMsgInteraction]).map
      Conversations.sessionMessageList = [[]] := by
  decide

namespace CSVExport

theorem dupQuotes_eq_nil (s : List Char) (h : dupQuotes s = []) : s = [] := by
  cases s with
  | nil => rfl
  | cons c rest =>
    exfalso
    by_cases hc : c = '"'
    · rw [show dupQuotes (c :: rest) = '"' :: '"' :: dupQuotes rest from if_pos hc] at h
      cases h
    · rw [show dupQuotes (c :: rest) = c :: dupQuotes rest from if_neg hc] at h
      cases h

theorem collapseQuotes_dupQuotes (s : List Char) : collapseQuotes (dupQuotes s) = s := by
  induction s with
  | nil => rfl
  | cons c rest ih =>
    by_cases hc : c = '"'
    · subst hc
      rw [show dupQuotes ('"' :: rest) = '"' :: '"' :: dupQuotes rest from if_pos rfl]
      cases hdr : dupQuotes rest with
      | nil =>
        rw [show collapseQuotes ['"', '"'] = if ('"' = '"' ∧ '"' = '"') then '"' :: collapseQuotes [] else '"' :: collapseQuotes ['"'] from rfl,
          if_pos ⟨rfl, rfl⟩, dupQuotes_eq_nil rest hdr]
        rfl
      | cons d t =>
        rw [show collapseQuotes ('"' :: '"' :: d :: t) = if ('"' = '"' ∧ '"' = '"') then '"' :: collapseQuotes (d :: t) else '"' :: collapseQuotes ('"' :: d :: t) from rfl,
          if_pos ⟨rfl, rfl⟩, ← hdr, ih]
    · rw [show dupQuotes (c :: rest) = c :: dupQuotes rest from if_neg hc]
      cases hdr : dupQuotes rest with
      | nil =>
        rw [dupQuotes_eq_nil rest hdr]
        rfl
      | cons d t =>
        rw [show collapseQuotes (c :: d :: t) = if (c = '"' ∧ d = '"') then '"' :: collapseQuotes t else c :: collapseQuotes (d :: t) from rfl,
          if_neg (fun hcd => hc hcd.1), ← hdr, ih]

theorem escapeCSVField_roundTrip (s : List Char) : parseCSVField (escapeCSVField s) = s := by
  by_cases hs : containsSpecial s = true
  · rw [show escapeCSVField s = '"' :: (dupQuotes s ++ ['"']) from if_pos hs]
    unfold parseCSVField
    rw [if_pos ?cond]
    case cond =>
      refine ⟨by simp, rfl, ?_⟩
      rw [← List.cons_append, List.getLast?_concat]
    rw [← List.cons_append, List.dropLast_concat]
    exact collapseQuotes_dupQuotes s
  · have hs' : containsSpecial s = false := by simpa using hs
    rw [show escapeCSVField s = s from if_neg (by simp [hs'])]
    unfold parseCSVField
    rw [if_neg ?h]
    case h =>
      rintro ⟨hlen, hhead, hlast⟩
      have hquote : '"' ∈ s := by
        cases s with
        | nil => cases hhead
        | cons c t =>
          have hc : c = '"' := by
            have := hhead
            simp only [List.head?_cons, Option.some.injEq] at this
            exact this
          rw [← hc]
          exact List.mem_cons_self c t
      simp only [containsSpecial, Bool.or_eq_false_iff, decide_eq_false_iff_not] at hs'
      exact absurd hquote (by tauto)

end CSVExport

/-- C4 (amended): ChatTab's CSV export escapes every field through
`escapeCSVField` — wrapping fields holding a comma, a quote, a newline or a
carriage return in double quotes with internal quotes doubled — and escaping
followed by standard CSV field parsing returns every input string exactly,
with special-character-free fields emitted unchanged; the LeadsTab export,
in contrast, emits every field verbatim with no escaping. -/
theorem c4_csv_escaping_roundtrip :
    (∀ s : List Char, CSVExport.parseCSVField (CSVExport.escapeCSVField s) = s) ∧
    (∀ s : List Char, CSVExport.containsSpecial s = false → CSVExport.escapeCSVField s = s) ∧
    (∀ l : CSVExport.ExportLead,
      (CSVExport.chatTabRow l).headD "" = CSVExport.escapeFieldS l.full_name) ∧
    (∀ l : CSVExport.ExportLead, (CSVExport.leadsTabRow l).headD "" = l.full_name) := by
  refine ⟨CSVExport.escapeCSVField_roundTrip, fun s hs => ?_, fun l => rfl, fun l => rfl⟩
  exact if_neg (by simp [hs])

/-- C4 counterexample: in the LeadsTab export a name holding a comma is
emitted verbatim — not wrapped in double quotes — so the emitted field is
not the escaped field the claim requires for "the leads CSV export". -/
theorem c4_counterexample :
    (CSVExport.leadsTabRow c4lead).headD "" = "Doe, Jane" ∧
    CSVExport.containsSpecial "Doe, Jane".data = true ∧
    ((CSVExport.leadsTabRow c4lead).headD "").data.head? ≠ some '"' ∧
    (CSVExport.leadsTabRow c4lead).headD "" ≠ CSVExport.escapeFieldS "Doe, Jane" := by
  refine ⟨rfl, by decide, by decide, ?_⟩
  intro h
  have := congrArg String.data h
  simp [CSVExport.escapeFieldS] at this
  cases this

namespace Capture

theorem calculateLeadScore_eq (n e w p : Bool) :
    calculateLeadScore n e w p =
      (if n then 20 else 0) + (if e then 30 else 0) + (if w then 25 else 0) +
      (if p then 15 else 0) := by
  unfold calculateLeadScore
  dsimp only
  split_ifs <;> omega

theorem captureLookup_isSome (store : List Lead) (e sid : String)
    (he : (e == "") = false)
    (hex : (∃ l ∈ store, l.email = e) ∨
      (∃ l ∈ store, l.source = "chatbot" ∧ l.notes = "session:" ++ sid)) :
    ∃ l0, captureLookup store (some e) sid = some l0 := by
  unfold captureLookup
  simp only [he]
  cases hfe : findByEmail store e with
  | some l0 => exact ⟨l0, by simp⟩
  | none =>
    rcases hex with ⟨l1, hl1, hemail⟩ | ⟨l1, hl1, hsrc, hnotes⟩
    · exfalso
      unfold findByEmail at hfe
      have := List.find?_eq_none.mp hfe l1 hl1
      simp [hemail] at this
    · cases hfs : findBySession store sid with
      | some l0 => exact ⟨l0, by simp [hfs]⟩
      | none =>
        exfalso
        unfold findBySession at hfs
        have := List.find?_eq_none.mp hfs l1 hl1
        simp [hsrc, hnotes] at this

end Capture

/-- C5: on a capture invocation that finds an existing lead, the capture-time
score is the sum name-present +20, email-present +30, website-present +25,
phone-present +15, and the stored `lead_score` is overwritten with that score
exactly when it is strictly greater than the stored score (a null stored
score read as 0); the stored score is never lowered by the update. -/
theorem c5_capture_score_overwrite (store : List Capture.Lead)
    (de dw dn dp : Option String) (sid : String) (newId : Nat) (l : Capture.Lead)
    (hgate : (jsTruthy dn && !(sid == "")) = true)
    (hfound : Capture.captureLookup store de sid = some l) :
    Capture.calculateLeadScore (jsTruthy dn) (jsTruthy de) (jsTruthy dw) (jsTruthy dp) =
      (if jsTruthy dn then 20 else 0) + (if jsTruthy de then 30 else 0) +
      (if jsTruthy dw then 25 else 0) + (if jsTruthy dp then 15 else 0) ∧
    ((Capture.captureUpdates l de dw dp
        (Capture.calculateLeadScore (jsTruthy dn) (jsTruthy de) (jsTruthy dw) (jsTruthy dp))).lead_score =
        some (Capture.calculateLeadScore (jsTruthy dn) (jsTruthy de) (jsTruthy dw) (jsTruthy dp)) ↔
      l.lead_score.getD 0 <
        Capture.calculateLeadScore (jsTruthy dn) (jsTruthy de) (jsTruthy dw) (jsTruthy dp)) ∧
    (Capture.applyUpdates l (Capture.captureUpdates l de dw dp
        (Capture.calculateLeadScore (jsTruthy dn) (jsTruthy de) (jsTruthy dw) (jsTruthy dp)))).lead_score =
      (if l.lead_score.getD 0 <
          Capture.calculateLeadScore (jsTruthy dn) (jsTruthy de) (jsTruthy dw) (jsTruthy dp)
        then some (Capture.calculateLeadScore (jsTruthy dn) (jsTruthy de) (jsTruthy dw) (jsTruthy dp))
        else l.lead_score) ∧
    l.lead_score.getD 0 ≤
      (Capture.applyUpdates l (Capture.captureUpdates l de dw dp
        (Capture.calculateLeadScore (jsTruthy dn) (jsTruthy de) (jsTruthy dw) (jsTruthy dp)))).lead_score.getD 0 ∧
    ((Capture.captureStep store de dw dn dp sid newId).action =
      if (Capture.captureUpdates l de dw dp
          (Capture.calculateLeadScore (jsTruthy dn) (jsTruthy de) (jsTruthy dw) (jsTruthy dp))).isEmpty
      then Capture.CaptureAction.noop
      else Capture.CaptureAction.updated l.id
        (Capture.captureUpdates l de dw dp
          (Capture.calculateLeadScore (jsTruthy dn) (jsTruthy de) (jsTruthy dw) (jsTruthy dp)))) := by
  refine ⟨Capture.calculateLeadScore_eq _ _ _ _, ?_, ?_, ?_, ?_⟩
  · unfold Capture.captureUpdates
    by_cases h : l.lead_score.getD 0 <
        Capture.calculateLeadScore (jsTruthy dn) (jsTruthy de) (jsTruthy dw) (jsTruthy dp)
    · simp [h]
    · simp [h]
  · unfold Capture.applyUpdates Capture.captureUpdates
    by_cases h : l.lead_score.getD 0 <
        Capture.calculateLeadScore (jsTruthy dn) (jsTruthy de) (jsTruthy dw) (jsTruthy dp)
    · simp [h]
    · simp [h]
  · unfold Capture.applyUpdates Capture.captureUpdates
    by_cases h : l.lead_score.getD 0 <
        Capture.calculateLeadScore (jsTruthy dn) (jsTruthy de) (jsTruthy dw) (jsTruthy dp)
    · simp [h]
      omega
    · simp [h]
  · unfold Capture.captureStep
    simp only [hgate, if_true, hfound]
    split_ifs <;> rfl

/-- C5 witness: a stored lead with score 10 found by email; the detected
name and email give capture score 50, which overwrites 10. -/
theorem c5_witness :
    Capture.calculateLeadScore (jsTruthy (some "Ann")) (jsTruthy (some "a@b.cc"))
        (jsTruthy none) (jsTruthy none) =
      (if jsTruthy (some "Ann") then 20 else 0) + (if jsTruthy (some "a@b.cc") then 30 else 0) +
      (if jsTruthy none then 25 else 0) + (if jsTruthy none then 15 else 0) ∧
    ((Capture.captureUpdates c5lead (some "a@b.cc") none none
        (Capture.calculateLeadScore (jsTruthy (some "Ann")) (jsTruthy (some "a@b.cc"))
          (jsTruthy none) (jsTruthy none))).lead_score =
        some (Capture.calculateLeadScore (jsTruthy (some "Ann")) (jsTruthy (some "a@b.cc"))
          (jsTruthy none) (jsTruthy none)) ↔
      c5lead.lead_score.getD 0 <
        Capture.calculateLeadScore (jsTruthy (some "Ann")) (jsTruthy (some "a@b.cc"))
          (jsTruthy none) (jsTruthy none)) ∧
    (Capture.applyUpdates c5lead (Capture.captureUpdates c5lead (some "a@b.cc") none none
        (Capture.calculateLeadScore (jsTruthy (some "Ann")) (jsTruthy (some "a@b.cc"))
          (jsTruthy none) (jsTruthy none)))).lead_score =
      (if c5lead.lead_score.getD 0 <
          Capture.calculateLeadScore (jsTruthy (some "Ann")) (jsTruthy (some "a@b.cc"))
            (jsTruthy none) (jsTruthy none)
        then some (Capture.calculateLeadScore (jsTruthy (some "Ann")) (jsTruthy (some "a@b.cc"))
          (jsTruthy none) (jsTruthy none))
        else c5lead.lead_score) ∧
    c5lead.lead_score.getD 0 ≤
      (Capture.applyUpdates c5lead (Capture.captureUpdates c5lead (some "a@b.cc") none none
        (Capture.calculateLeadScore (jsTruthy (some "Ann")) (jsTruthy (some "a@b.cc"))
          (jsTruthy none) (jsTruthy none)))).lead_score.getD 0 ∧
    ((Capture.captureStep [c5lead] (some "a@b.cc") none (some "Ann") none "s1" 99).action =
      if (Capture.captureUpdates c5lead (some "a@b.cc") none none
          (Capture.calculateLeadScore (jsTruthy (some "Ann")) (jsTruthy (some "a@b.cc"))
            (jsTruthy none) (jsTruthy none))).isEmpty
      then Capture.CaptureAction.noop
      else Capture.CaptureAction.updated c5lead.id
        (Capture.captureUpdates c5lead (some "a@b.cc") none none
          (Capture.calculateLeadScore (jsTruthy (some "Ann")) (jsTruthy (some "a@b.cc"))
            (jsTruthy none) (jsTruthy none)))) :=
  c5_capture_score_overwrite [c5lead] (some "a@b.cc") none (some "Ann") none "s1" 99 c5lead
    (by decide) (by decide)


namespace Capture

theorem captureStep_gate_false (store : List Lead) (de dw dn dp : Option String)
    (sid : String) (newId : Nat) (hgate : (jsTruthy dn && !(sid == "")) = false) :
    captureStep store de dw dn dp sid newId = { store := store, action := .noop } := by
  unfold captureStep
  rw [hgate]
  rfl

theorem captureStep_found (store : List Lead) (de dw dn dp : Option String)
    (sid : String) (newId : Nat) (l0 : Lead)
    (hgate : (jsTruthy dn && !(sid == "")) = true)
    (hlook : captureLookup store de sid = some l0) :
    captureStep store de dw dn dp sid newId =
      (if (captureUpdates l0 de dw dp (calculateLeadScore (jsTruthy dn) (jsTruthy de)
          (jsTruthy dw) (jsTruthy dp))).isEmpty
       then { store := store, action := .noop }
       else
         { store := store.map (fun l => if l.id == l0.id then applyUpdates l
             (captureUpdates l0 de dw dp (calculateLeadScore (jsTruthy dn) (jsTruthy de)
               (jsTruthy dw) (jsTruthy dp))) else l)
           action := .updated l0.id (captureUpdates l0 de dw dp
             (calculateLeadScore (jsTruthy dn) (jsTruthy de) (jsTruthy dw) (jsTruthy dp))) }) := by
  unfold captureStep
  rw [hgate, hlook]
  rfl

/-- The lead row the insert branch builds. -/
def insertedLead (de dw dn dp : Option String) (sid : String) (newId : Nat) : Lead :=
  { id := newId
    email :=
      match de with
      | some e => if e == "" then "pending_" ++ sid ++ "@chatbot.temp" else e
      | none => "pending_" ++ sid ++ "@chatbot.temp"
    full_name := dn.getD ""
    source := "chatbot"
    lead_score := some (calculateLeadScore (jsTruthy dn) (jsTruthy de) (jsTruthy dw) (jsTruthy dp))
    notes := "session:" ++ sid
    website := if jsTruthy dw then dw else none
    phone := if jsTruthy dp then dp else none }

theorem captureStep_insert (store : List Lead) (de dw dn dp : Option String)
    (sid : String) (newId : Nat)
    (hgate : (jsTruthy dn && !(sid == "")) = true)
    (hlook : captureLookup store de sid = none) :
    captureStep store de dw dn dp sid newId =
      { store := store ++ [insertedLead de dw dn dp sid newId]
        action := .inserted (insertedLead de dw dn dp sid newId) } := by
  unfold captureStep insertedLead
  rw [hgate, hlook]
  rfl

end Capture

/-- C6: when a lead with the detected email already exists — or a
session-keyed chatbot placeholder for the session exists — the capture rule
takes the update path: it never inserts and the store keeps its size.
Moreover any insert the rule does perform with a truthy detected email
stores exactly that email, so a following invocation detecting the same
email finds it and cannot insert again. -/
theorem c6_no_duplicate_insert (store : List Capture.Lead)
    (de dw dn dp : Option String) (sid : String) (newId : Nat) (e : String)
    (hde : de = some e) (he : (e == "") = false) :
    ((∃ l ∈ store, l.email = e) ∨
      (∃ l ∈ store, l.source = "chatbot" ∧ l.notes = "session:" ++ sid) →
      (∀ l', (Capture.captureStep store de dw dn dp sid newId).action ≠
        Capture.CaptureAction.inserted l') ∧
      (Capture.captureStep store de dw dn dp sid newId).store.length = store.length) ∧
    (∀ l', (Capture.captureStep store de dw dn dp sid newId).action =
        Capture.CaptureAction.inserted l' →
      l'.email = e ∧ l' ∈ (Capture.captureStep store de dw dn dp sid newId).store) := by
  subst hde
  cases hgate : (jsTruthy dn && !(sid == "")) with
  | false =>
    rw [Capture.captureStep_gate_false store _ dw dn dp sid newId hgate]
    constructor
    · intro _
      refine ⟨fun l' h => ?_, rfl⟩
      cases h
    · intro l' h
      cases h
  | true =>
    constructor
    · intro hex
      obtain ⟨l0, hl0⟩ := Capture.captureLookup_isSome store e sid he hex
      rw [Capture.captureStep_found store _ dw dn dp sid newId l0 hgate hl0]
      constructor
      · intro l'
        split_ifs <;> intro h <;> simp at h
      · split_ifs
        · rfl
        · exact List.length_map _ _
    · intro l' h
      cases hlook : Capture.captureLookup store (some e) sid with
      | some l0 =>
        rw [Capture.captureStep_found store _ dw dn dp sid newId l0 hgate hlook] at h
        split_ifs at h <;> simp at h
      | none =>
        rw [Capture.captureStep_insert store _ dw dn dp sid newId hgate hlook] at h
        simp only at h
        have hl' : l' = Capture.insertedLead (some e) dw dn dp sid newId := by
          cases h
          rfl
        refine ⟨?_, ?_⟩
        · rw [hl']
          show (if e == "" then "pending_" ++ sid ++ "@chatbot.temp" else e) = e
          rw [if_neg (by simp [he])]
        · rw [Capture.captureStep_insert store _ dw dn dp sid newId hgate hlook, hl']
          exact List.mem_append_right _ (List.mem_singleton.mpr rfl)

/-- C6 witness: the store already holds the lead with the detected email, so
a repeated invocation updates rather than inserts. -/
theorem c6_witness :
    ((∃ l ∈ [c5lead], l.email = "a@b.cc") ∨
      (∃ l ∈ [c5lead], l.source = "chatbot" ∧ l.notes = "session:" ++ "s1") →
      (∀ l', (Capture.captureStep [c5lead] (some "a@b.cc") none (some "Ann") none "s1" 99).action ≠
        Capture.CaptureAction.inserted l') ∧
      (Capture.captureStep [c5lead] (some "a@b.cc") none (some "Ann") none "s1" 99).store.length =
        [c5lead].length) ∧
    (∀ l', (Capture.captureStep [c5lead] (some "a@b.cc") none (some "Ann") none "s1" 99).action =
        Capture.CaptureAction.inserted l' →
      l'.email = "a@b.cc" ∧
      l' ∈ (Capture.captureStep [c5lead] (some "a@b.cc") none (some "Ann") none "s1" 99).store) :=
  c6_no_duplicate_insert [c5lead] (some "a@b.cc") none (some "Ann") none "s1" 99 "a@b.cc"
    rfl (by decide)

/-- C9: every lead the capture rule inserts carries exactly the capture-time
score, and that score lies between 20 and 90 inclusive: the insert branch
runs only with a truthy detected name (+20) and the four contributions sum
to at most 90. -/
theorem c9_inserted_score_bounds (store : List Capture.Lead)
    (de dw dn dp : Option String) (sid : String) (newId : Nat) (l' : Capture.Lead)
    (h : (Capture.captureStep store de dw dn dp sid newId).action =
      Capture.CaptureAction.inserted l') :
    l'.lead_score = some (Capture.calculateLeadScore (jsTruthy dn) (jsTruthy de)
      (jsTruthy dw) (jsTruthy dp)) ∧
    (∀ s : Int, l'.lead_score = some s → 20 ≤ s ∧ s ≤ 90) := by
  cases hgate : (jsTruthy dn && !(sid == "")) with
  | false =>
    rw [Capture.captureStep_gate_false store de dw dn dp sid newId hgate] at h
    cases h
  | true =>
    cases hlook : Capture.captureLookup store de sid with
    | some l0 =>
      rw [Capture.captureStep_found store de dw dn dp sid newId l0 hgate hlook] at h
      split_ifs at h <;> simp at h
    | none =>
      rw [Capture.captureStep_insert store de dw dn dp sid newId hgate hlook] at h
      simp only at h
      have hl' : l' = Capture.insertedLead de dw dn dp sid newId := by
        cases h
        rfl
      have hn : jsTruthy dn = true := by
        cases hdn : jsTruthy dn
        · rw [hdn] at hgate
          simp at hgate
        · rfl
      have hscore : l'.lead_score = some (Capture.calculateLeadScore (jsTruthy dn)
          (jsTruthy de) (jsTruthy dw) (jsTruthy dp)) := by
        rw [hl']
        rfl
      refine ⟨hscore, fun s hs => ?_⟩
      rw [hscore] at hs
      have hs' : s = Capture.calculateLeadScore (jsTruthy dn) (jsTruthy de)
          (jsTruthy dw) (jsTruthy dp) := by
        simpa using hs.symm
      rw [hs', Capture.calculateLeadScore_eq, hn]
      have h20 : (if (true : Bool) then (20 : Int) else 0) = 20 := rfl
      rw [h20]
      split_ifs <;> omega

/-- C9 witness: inserting from the empty store with a detected name and
email yields the stored score 50, inside the 20..90 band. -/
theorem c9_witness :
    c9lead.lead_score = some (Capture.calculateLeadScore (jsTruthy (some "Dana"))
      (jsTruthy (some "x@y.zz")) (jsTruthy none) (jsTruthy none)) ∧
    (∀ s : Int, c9lead.lead_score = some s → 20 ≤ s ∧ s ≤ 90) :=
  c9_inserted_score_bounds [] (some "x@y.zz") none (some "Dana") none "s" 1 c9lead (by decide)

/-- C8 (amended): whenever the scraping collaborator yields no usable
content, the operation returns the soft failure `success: false` with a
message and issues no lead update; when a collaborator call throws, the
operation returns a plain `{ error }` 500 response (no `success` field) and
issues no lead update; and when the AI collaborator yields no usable
extraction, the operation issues no lead update but returns
`success: true` with an empty extraction rather than a soft failure.  In
every such case the lead row is left completely unmodified. -/
theorem c8_enrich_failure_paths (leadId url : String) (db : Bool)
    (hlead : (leadId == "") = false) (hurl : (url == "") = false) :
    (∀ (msg : String) (ai : Enrich.FetchResult Enrich.AiData),
      Enrich.enrichServe leadId url (.thrown msg) ai db =
        { response := { error := some msg, status := 500 } }) ∧
    (∀ (sd : Enrich.ScrapeData) (ai : Enrich.FetchResult Enrich.AiData),
      Enrich.scrapedContentOf sd = "" →
      Enrich.enrichServe leadId url (.ok sd) ai db =
        { response :=
            { success := some false, error := some "No content scraped", status := 200 } }) ∧
    (∀ (sd : Enrich.ScrapeData) (msg : String),
      Enrich.scrapedContentOf sd ≠ "" →
      Enrich.enrichServe leadId url (.ok sd) (.thrown msg) db =
        { response := { error := some msg, status := 500 } }) ∧
    (∀ (sd : Enrich.ScrapeData) (aid : Enrich.AiData),
      Enrich.scrapedContentOf sd ≠ "" →
      (Enrich.updatesOf (Enrich.extractedOf aid)).isEmpty = true →
      Enrich.enrichServe leadId url (.ok sd) (.ok aid) db =
        { response := { success := some true, status := 200 } }) := by
  refine ⟨fun msg ai => ?_, fun sd ai h => ?_, fun sd msg h => ?_, fun sd aid h hu => ?_⟩
  · unfold Enrich.enrichServe
    simp [hlead, hurl]
  · unfold Enrich.enrichServe
    simp [hlead, hurl, h]
  · unfold Enrich.enrichServe
    simp [hlead, hurl, h]
  · unfold Enrich.enrichServe
    simp [hlead, hurl, h, hu]

/-- C8 witness: concrete request fields, validation hypotheses discharged. -/
theorem c8_witness :
    (∀ (msg : String) (ai : Enrich.FetchResult Enrich.AiData),
      Enrich.enrichServe "L1" "example.com" (.thrown msg) ai true =
        { response := { error := some msg, status := 500 } }) ∧
    (∀ (sd : Enrich.ScrapeData) (ai : Enrich.FetchResult Enrich.AiData),
      Enrich.scrapedContentOf sd = "" →
      Enrich.enrichServe "L1" "example.com" (.ok sd) ai true =
        { response :=
            { success := some false, error := some "No content scraped", status := 200 } }) ∧
    (∀ (sd : Enrich.ScrapeData) (msg : String),
      Enrich.scrapedContentOf sd ≠ "" →
      Enrich.enrichServe "L1" "example.com" (.ok sd) (.thrown msg) true =
        { response := { error := some msg, status := 500 } }) ∧
    (∀ (sd : Enrich.ScrapeData) (aid : Enrich.AiData),
      Enrich.scrapedContentOf sd ≠ "" →
      (Enrich.updatesOf (Enrich.extractedOf aid)).isEmpty = true →
      Enrich.enrichServe "L1" "example.com" (.ok sd) (.ok aid) true =
        { response := { success := some true, status := 200 } }) :=
  c8_enrich_failure_paths "L1" "example.com" true (by decide) (by decide)

/-- C8 counterexample: the scrape succeeds but the AI yields no usable
extraction (no tool call, no parseable content); the handler issues no
update yet returns `success: true`, not the soft failure `success: false`
with a message that the claim requires for an AI-collaborator failure. -/
theorem c8_counterexample :
    Enrich.enrichServe "L1" "example.com"
        (Enrich.FetchResult.ok { dataMarkdown := some "content" })
        (Enrich.FetchResult.ok { toolExtracted := none, contentExtracted := none }) true =
      { response := { success := some true, status := 200 } } ∧
    (Enrich.enrichServe "L1" "example.com"
        (Enrich.FetchResult.ok { dataMarkdown := some "content" })
        (Enrich.FetchResult.ok { toolExtracted := none, contentExtracted := none })
        true).response.success ≠ some false ∧
    (Enrich.enrichServe "L1" "example.com"
        (Enrich.FetchResult.ok { dataMarkdown := some "content" })
        (Enrich.FetchResult.ok { toolExtracted := none, contentExtracted := none })
        true).updateIssued = false := by
  decide

namespace Capture

theorem isLocalChar_toLower (n : Nat) : isLocalChar (toLowerCode n) = isLocalChar n := by
  unfold toLowerCode isLocalChar
  split_ifs with h
  · simp only [decide_eq_decide]
    omega
  · rfl

theorem isDomainChar_toLower (n : Nat) : isDomainChar (toLowerCode n) = isDomainChar n := by
  unfold toLowerCode isDomainChar
  split_ifs with h
  · simp only [decide_eq_decide]
    omega
  · rfl

theorem isAsciiLetter_toLower (n : Nat) : isAsciiLetter (toLowerCode n) = isAsciiLetter n := by
  unfold toLowerCode isAsciiLetter
  split_ifs with h
  · simp only [decide_eq_decide]
    omega
  · rfl

theorem beq_toLower_64 (n : Nat) : (toLowerCode n == 64) = (n == 64) := by
  unfold toLowerCode
  split_ifs with h
  · have h1 : (n + 32 == 64) = false := by simp; omega
    have h2 : (n == 64) = false := by simp; omega
    rw [h1, h2]
  · rfl

theorem beq_toLower_46 (n : Nat) : (toLowerCode n == 46) = (n == 46) := by
  unfold toLowerCode
  split_ifs with h
  · have h1 : (n + 32 == 46) = false := by simp; omega
    have h2 : (n == 46) = false := by simp; omega
    rw [h1, h2]
  · rfl

theorem runLength_map_toLower (p : Nat → Bool) (hp : ∀ n, p (toLowerCode n) = p n) :
    ∀ cs : List Nat, runLength p (cs.map toLowerCode) = runLength p cs := by
  intro cs
  induction cs with
  | nil => rfl
  | cons c tl ih =>
    simp only [List.map_cons]
    unfold runLength
    rw [hp c, ih]

theorem tryDot_map_toLower (rest : List Nat) :
    ∀ n : Nat, tryDot (rest.map toLowerCode) n = tryDot rest n := by
  intro n
  induction n with
  | zero => rfl
  | succ d ih =>
    unfold tryDot
    rw [← List.map_drop]
    cases hdr : rest.drop (d + 1) with
    | nil => exact ih
    | cons dot tl =>
      simp only [List.map_cons]
      rw [beq_toLower_46]
      cases hq : (dot == 46) with
      | false => exact ih
      | true =>
        rw [runLength_map_toLower isAsciiLetter isAsciiLetter_toLower tl]
        split_ifs <;> first | rfl | exact ih

theorem emailMatchAt_map_toLower (cs : List Nat) :
    emailMatchAt (cs.map toLowerCode) = (emailMatchAt cs).map (List.map toLowerCode) := by
  unfold emailMatchAt
  rw [runLength_map_toLower isLocalChar isLocalChar_toLower cs]
  cases hL : (runLength isLocalChar cs == 0) with
  | true => rfl
  | false =>
    rw [← List.map_drop]
    cases hdr : cs.drop (runLength isLocalChar cs) with
    | nil => rfl
    | cons a rest =>
      simp only [List.map_cons]
      rw [beq_toLower_64]
      cases ha : (a == 64) with
      | false => rfl
      | true =>
        simp only [if_pos rfl]
        rw [runLength_map_toLower isDomainChar isDomainChar_toLower rest,
          tryDot_map_toLower rest]
        cases htd : tryDot rest (runLength isDomainChar rest) with
        | none => rfl
        | some da =>
          obtain ⟨d, A⟩ := da
          simp [← List.map_take]

theorem findEmailMatch_map_toLower (cs : List Nat) :
    findEmailMatch (cs.map toLowerCode) = (findEmailMatch cs).map (List.map toLowerCode) := by
  induction cs with
  | nil => rfl
  | cons c tl ih =>
    simp only [List.map_cons]
    unfold findEmailMatch
    rw [show toLowerCode c :: tl.map toLowerCode = (c :: tl).map toLowerCode from rfl,
      emailMatchAt_map_toLower (c :: tl)]
    cases hm : emailMatchAt (c :: tl) with
    | some m => rfl
    | none => exact ih

theorem toLowerCode_idem (n : Nat) : toLowerCode (toLowerCode n) = toLowerCode n := by
  unfold toLowerCode
  split_ifs with h1 h2 <;> omega

theorem map_toLower_idem (m : List Nat) :
    (m.map toLowerCode).map toLowerCode = m.map toLowerCode := by
  induction m with
  | nil => rfl
  | cons c tl ih =>
    simp only [List.map_cons, toLowerCode_idem, ih]

theorem extractEmail_map_toLower (cs : List Nat) :
    extractEmail (cs.map toLowerCode) = extractEmail cs := by
  unfold extractEmail
  rw [findEmailMatch_map_toLower]
  cases hf : findEmailMatch cs with
  | none => rfl
  | some m =>
    simp [map_toLower_idem, toLowerCode_idem]

theorem extractEmail_lower (cs m : List Nat) (h : extractEmail cs = some m) :
    m.map toLowerCode = m := by
  unfold extractEmail at h
  cases hf : findEmailMatch cs with
  | none => rw [hf] at h; cases h
  | some m0 =>
    rw [hf] at h
    have h' : List.map toLowerCode m0 = m := by simpa using h
    rw [← h', map_toLower_idem]

end Capture

/-- C10: `extractEmail` returns null or the first pattern match converted
entirely to lowercase: its result is lowercase-fixed, and two texts equal up
to ASCII letter case yield the same detected email, making the capture
rule's email-keyed deduplication case-insensitive at detection time. -/
theorem c10_extract_email_case_insensitive (as bs : List Nat)
    (h : as.map Capture.toLowerCode = bs.map Capture.toLowerCode) :
    Capture.extractEmail as = Capture.extractEmail bs ∧
    (∀ m, Capture.extractEmail as = some m → m.map Capture.toLowerCode = m) := by
  refine ⟨?_, fun m hm => Capture.extractEmail_lower as m hm⟩
  rw [← Capture.extractEmail_map_toLower as, h, Capture.extractEmail_map_toLower bs]

/-- C10 witness: two texts that differ only in letter case yield the same
(lowercase) extracted email. -/
theorem c10_witness :
    Capture.extractEmail (codesOf "Hi JOHN.Doe@Example.COM") =
      Capture.extractEmail (codesOf "hi john.doe@example.com") ∧
    (∀ m, Capture.extractEmail (codesOf "Hi JOHN.Doe@Example.COM") = some m →
      m.map Capture.toLowerCode = m) :=
  c10_extract_email_case_insensitive (codesOf "Hi JOHN.Doe@Example.COM")
    (codesOf "hi john.doe@example.com") (by decide)

/-- Sanity check: the matcher picks the full leftmost match and lowercases it. -/
theorem extractEmail_sample_multilevel :
    Capture.extractEmail (codesOf "Reach Foo.Bar@Sub.Example.co.uk now") =
      some (codesOf "foo.bar@sub.example.co.uk") := by decide

/-- Sanity check: a one-letter TLD does not match (`{2,}`). -/
theorem extractEmail_sample_short_tld :
    Capture.extractEmail (codesOf "a@b.c none") = none := by decide

/-- Sanity check: the first of two candidate addresses wins. -/
theorem extractEmail_sample_first_wins :
    Capture.extractEmail (codesOf "two A@bb.cc then z@y.xx") =
      some (codesOf "a@bb.cc") := by decide

/-- Sanity check: a trailing domain dot is backtracked away, keeping the
greedy TLD run before it. -/
theorem extractEmail_sample_trailing_dot :
    Capture.extractEmail (codesOf "My email is JOHN.DOE+tag@Gmail.COM.") =
      some (codesOf "john.doe+tag@gmail.com") := by decide
